import Mathlib

/-!
Verification development for the mux HTTP router library.

Go strings are byte sequences; all of the routines modelled here treat them
bytewise, so a Go string is embedded as a list of characters (`GoStr`), each
character standing for one byte.  Functions from the Go standard library that
the routed code calls (`strings.Cut`, `strings.IndexAny`, `url.QueryUnescape`,
`url.QueryEscape`, `regexp` matching, ...) are embedded alongside the code of
the repository itself.
-/

abbrev GoStr := List Char

def gs (s : String) : GoStr := s.data

/-- Embeds strings.HasSuffix for a one-character suffix. -/
def hasSuffixC (s : GoStr) (c : Char) : Bool :=
  match s.getLast? with
  | some d => d = c
  | none => false

/-- Embeds strings.Contains for a one-character substring. -/
def containsC (s : GoStr) (c : Char) : Bool := s.contains c

/-- Embeds strings.IndexAny: index of the first character of s that is in chars. -/
def indexAny : GoStr → List Char → Option Nat
  | [], _ => none
  | c :: t, chars => if chars.contains c then some 0 else (indexAny t chars).map (· + 1)

/-- Embeds strings.Cut for a one-character separator: (before, after, found). -/
def cutList (s : GoStr) (sep : Char) : GoStr × GoStr × Bool :=
  match indexAny s [sep] with
  | some i => (s.take i, s.drop (i + 1), true)
  | none => (s, [], false)

/-- Association-list lookup used to embed Go map reads (values[v]). -/
def lookupV : List (GoStr × GoStr) → GoStr → Option GoStr
  | [], _ => none
  | (k, v) :: t, key => if k = key then some v else lookupV t key

/-- Association-list update used to embed Go map writes (m[k] = v). -/
def assocSet : List (GoStr × GoStr) → GoStr → GoStr → List (GoStr × GoStr)
  | [], k, v => [(k, v)]
  | (k0, v0) :: t, k, v => if k0 = k then (k, v) :: t else (k0, v0) :: assocSet t k v

/-- A Go map[string]string value: none is the nil map, some l a non-nil map. -/
abbrev GoMap := Option (List (GoStr × GoStr))

def goMapLen : GoMap → Nat
  | none => 0
  | some l => l.length

/-- Embeds the hex-digit reading of net/url (ishex and unhex combined). -/
def unhex (c : Char) : Option Nat :=
  if '0' ≤ c ∧ c ≤ '9' then some (c.toNat - 48)
  else if 'a' ≤ c ∧ c ≤ 'f' then some (c.toNat - 87)
  else if 'A' ≤ c ∧ c ≤ 'F' then some (c.toNat - 55)
  else none

/-- Embeds net/url QueryUnescape: percent-decoding in query mode.
An invalid escape (percent not followed by two hex digits) yields none,
a plus sign decodes to a space, every other byte passes through. -/
def queryUnescape : GoStr → Option GoStr
  | [] => some []
  | c :: t =>
    if c = '%' then
      match t with
      | a :: b :: t2 =>
        match unhex a, unhex b with
        | some ha, some hb => (queryUnescape t2).map (fun r => Char.ofNat (16 * ha + hb) :: r)
        | _, _ => none
      | _ => none
    else if c = '+' then (queryUnescape t).map (fun r => ' ' :: r)
    else (queryUnescape t).map (fun r => c :: r)

def digitChar (n : Nat) : Char := Char.ofNat (48 + n)

def hexUpperDigit (n : Nat) : Char :=
  if n < 10 then digitChar n else Char.ofNat (55 + n)

def isAlphaNum (c : Char) : Bool :=
  ('a' ≤ c && c ≤ 'z') || ('A' ≤ c && c ≤ 'Z') || ('0' ≤ c && c ≤ '9')

/-- Embeds net/url QueryEscape: alphanumerics and dash, underscore, dot, tilde
pass through, space becomes plus, all other bytes become a percent escape. -/
def queryEscape : GoStr → GoStr
  | [] => []
  | c :: t =>
    if isAlphaNum c || c = '-' || c = '_' || c = '.' || c = '~' then c :: queryEscape t
    else if c = ' ' then '+' :: queryEscape t
    else '%' :: hexUpperDigit (c.toNat / 16) :: hexUpperDigit (c.toNat % 16) :: queryEscape t

/-- Separator characters used for query-pair splitting in the given mode. -/
def sepsOf (strict : Bool) : List Char := if strict then ['&'] else ['&', ';']

/-- One scanning step of findFirstQueryKey: the raw first segment and the rest
of the query string.  The strict branch embeds strings.Cut on an ampersand, the
non-strict branch embeds strings.IndexAny on ampersand-or-semicolon, exactly as
in the source. -/
def cutSeg (strict : Bool) (q : GoStr) : GoStr × GoStr :=
  if strict then ((cutList q '&').1, (cutList q '&').2.1)
  else
    match indexAny q ['&', ';'] with
    | some i => (q.take i, q.drop (i + 1))
    | none => (q, [])

/-- Embeds findFirstQueryKey from the source: scans the raw query left to
right, splitting on ampersand (strict) or ampersand/semicolon (non-strict),
skipping empty segments, cutting each segment at the first equals sign,
skipping segments whose raw key is shorter than the target or whose key or
value fails percent-decoding, and returning the first decoded value whose
decoded key equals the target.  The Go pair (value, ok) becomes an Option. -/
def ffqkLoop : Nat → GoStr → GoStr → Bool → Option GoStr
  | 0, _, _, _ => none
  | fuel + 1, rawQuery, key, strict =>
    if rawQuery = [] then none
    else
      if (cutSeg strict rawQuery).1 = [] then
        ffqkLoop fuel (cutSeg strict rawQuery).2 key strict
      else
        if (cutList (cutSeg strict rawQuery).1 '=').1.length < key.length then
          ffqkLoop fuel (cutSeg strict rawQuery).2 key strict
        else
          match queryUnescape (cutList (cutSeg strict rawQuery).1 '=').1 with
          | none => ffqkLoop fuel (cutSeg strict rawQuery).2 key strict
          | some keyString =>
            if keyString ≠ key then ffqkLoop fuel (cutSeg strict rawQuery).2 key strict
            else
              match queryUnescape (cutList (cutSeg strict rawQuery).1 '=').2.1 with
              | none => ffqkLoop fuel (cutSeg strict rawQuery).2 key strict
              | some valueString => some valueString

/-- The loop shrinks the remaining raw query at every iteration, so a budget
of one more than its length always suffices; fuel adequacy is proved below. -/
def findFirstQueryKey (rawQuery key : GoStr) (strict : Bool) : Option GoStr :=
  ffqkLoop (rawQuery.length + 1) rawQuery key strict

def isSepB (strict : Bool) (c : Char) : Bool := (sepsOf strict).contains c

/-- Modelled from the spec: splitting the raw query into segments on the
separator characters of the mode, as the matcher description words it
("splitting on ampersand only when strictQueryParamSep is set, otherwise
splitting on ampersand or semicolon").  Used to state the refinement of
findFirstQueryKey against the specification wording. -/
def splitSegs (strict : Bool) : GoStr → List GoStr
  | [] => [[]]
  | c :: t =>
    if isSepB strict c then [] :: splitSegs strict t
    else
      match splitSegs strict t with
      | s :: ss => (c :: s) :: ss
      | [] => [[c]]

/-- Modelled from the spec: the decoding of one segment during query lookup
("for each segment split on the first equals sign; percent-decode key and
value; return the first segment whose decoded key equals the target key"). -/
def decodeSeg (key seg : GoStr) : Option GoStr :=
  match queryUnescape (cutList seg '=').1, queryUnescape (cutList seg '=').2.1 with
  | some dk, some dv => if dk = key then some dv else none
  | _, _ => none

/-- Modelled from the spec: query-key lookup as the specification words it:
split the raw query into segments, skip empty segments, and return the first
segment that decodes with the target key. -/
def specFindKey (q key : GoStr) (strict : Bool) : Option GoStr :=
  ((splitSegs strict q).filter (fun s => !s.isEmpty)).findSome? (decodeSeg key)

/-! ## Regular expressions

The repository delegates pattern compilation and matching to the regexp
package through the injectable RegexpCompileFunc.  That collaborator is
embedded here: a syntax tree, a backtracking matcher with capture recording
(Go submatch semantics are leftmost-first, the same answers a backtracking
search gives), and a parser for the pattern syntax the router generates
(literals, escaped metacharacters, character classes with ranges and
negation, dot, alternation, grouping both capturing and non-capturing,
star, plus and question-mark postfix operators, and the start/end anchors
the generated patterns carry). -/

inductive ClsItem where
  | single (c : Char)
  | range (lo hi : Char)
deriving DecidableEq

inductive RE where
  | eps
  | lit (c : Char)
  | cls (neg : Bool) (items : List ClsItem)
  | anyc
  | seq (a b : RE)
  | alt (a b : RE)
  | star (a : RE)
  | group (cap : Option Nat) (a : RE)
deriving DecidableEq

def clsMem (c : Char) : List ClsItem → Bool
  | [] => false
  | .single d :: t => c = d || clsMem c t
  | .range lo hi :: t => (lo ≤ c && c ≤ hi) || clsMem c t

/-- Captured submatches: group index paired with the captured text. -/
abbrev Caps := List (Nat × GoStr)

def setCap : Caps → Nat → GoStr → Caps
  | [], i, s => [(i, s)]
  | (j, s0) :: t, i, s => if j = i then (i, s) :: t else (j, s0) :: setCap t i s

def capLookup (caps : Caps) (i : Nat) : GoStr :=
  match caps with
  | [] => []
  | (j, s) :: t => if j = i then s else capLookup t i

/-- Matcher result: out means the step budget ran out (never conflated with a
genuine non-match in any statement below), nomatch a definite failure, found a
match carrying its captures. -/
inductive MR where
  | out
  | nomatch
  | found (caps : Caps)
deriving DecidableEq

def MR.orElse : MR → (Unit → MR) → MR
  | .nomatch, f => f ()
  | r, _ => r

/-- Backtracking matcher in continuation-passing style.  Greedy repetition
tries the longer continuation first, which reproduces the leftmost-first
submatch semantics of the Go regexp package.  The star case only iterates when
the body consumed input, so the recursion is total; the fuel bounds the
recursion depth and exhaustion is reported as MR.out. -/
def reMatch : Nat → RE → GoStr → Caps → (GoStr → Caps → MR) → MR
  | 0, _, _, _, _ => .out
  | fuel + 1, re, s, caps, k =>
    match re with
    | .eps => k s caps
    | .lit c =>
      match s with
      | [] => .nomatch
      | c2 :: s2 => if c2 = c then k s2 caps else .nomatch
    | .cls neg items =>
      match s with
      | [] => .nomatch
      | c2 :: s2 => if clsMem c2 items ≠ neg then k s2 caps else .nomatch
    | .anyc =>
      match s with
      | [] => .nomatch
      | c2 :: s2 => if c2 = Char.ofNat 10 then .nomatch else k s2 caps
    | .seq a b => reMatch fuel a s caps (fun s2 c2 => reMatch fuel b s2 c2 k)
    | .alt a b => (reMatch fuel a s caps k).orElse (fun _ => reMatch fuel b s caps k)
    | .star a =>
      (reMatch fuel a s caps (fun s2 c2 =>
        if s2.length < s.length then reMatch fuel (.star a) s2 c2 k else .nomatch)).orElse
        (fun _ => k s caps)
    | .group cap a =>
      reMatch fuel a s caps (fun s2 c2 =>
        match cap with
        | none => k s2 c2
        | some i => k s2 (setCap c2 i (s.take (s.length - s2.length))))

def reSize : RE → Nat
  | .eps => 1
  | .lit _ => 1
  | .cls _ _ => 1
  | .anyc => 1
  | .seq a b => reSize a + reSize b + 1
  | .alt a b => reSize a + reSize b + 1
  | .star a => reSize a + 1
  | .group _ a => reSize a + 1

/-- A compiled pattern: source text, syntax tree, anchor flags and the number
of capturing groups (what NumSubexp reports in Go). -/
structure Regexp where
  src : GoStr
  ast : RE
  anchStart : Bool
  anchEnd : Bool
  nCaps : Nat
deriving DecidableEq

/-- Character-class body parser: consumes items up to the closing bracket. -/
def parseClsItems : GoStr → Option (List ClsItem × GoStr)
  | [] => none
  | ']' :: t => some ([], t)
  | '\\' :: [] => none
  | '\\' :: d :: t2 => (parseClsItems t2).map (fun p => (.single d :: p.1, p.2))
  | c :: dh :: d :: t2 =>
    if dh = '-' && d ≠ ']' then (parseClsItems t2).map (fun p => (.range c d :: p.1, p.2))
    else (parseClsItems (dh :: d :: t2)).map (fun p => (.single c :: p.1, p.2))
  | c :: t => (parseClsItems t).map (fun p => (.single c :: p.1, p.2))

/-- Consumes a capture-group name up to the closing angle bracket. -/
def skipGroupName : GoStr → Option GoStr
  | [] => none
  | '>' :: t => some t
  | _ :: t => skipGroupName t

/-- Characters that cannot begin an atom. -/
def atomForbidden : List Char :=
  ['|', ')', '*', '+', '?', '^', '$', Char.ofNat 123, Char.ofNat 125]

mutual

/-- Parses one atom.  State: fuel, input, next capture index. -/
def parseAtomF : Nat → GoStr → Nat → Option (RE × GoStr × Nat)
  | 0, _, _ => none
  | fuel + 1, s, cap =>
    match s with
    | [] => none
    | '\\' :: c :: t => some (.lit c, t, cap)
    | '\\' :: [] => none
    | '[' :: '^' :: t => (parseClsItems t).map (fun p => (.cls true p.1, p.2, cap))
    | '[' :: t => (parseClsItems t).map (fun p => (.cls false p.1, p.2, cap))
    | '(' :: '?' :: ':' :: t =>
      match parseAltF fuel t cap with
      | some (re, ')' :: r, cap2) => some (.group none re, r, cap2)
      | _ => none
    | '(' :: '?' :: 'P' :: '<' :: t =>
      match skipGroupName t with
      | none => none
      | some t2 =>
        match parseAltF fuel t2 (cap + 1) with
        | some (re, ')' :: r, cap2) => some (.group (some cap) re, r, cap2)
        | _ => none
    | '(' :: '?' :: _ => none
    | '(' :: t =>
      match parseAltF fuel t (cap + 1) with
      | some (re, ')' :: r, cap2) => some (.group (some cap) re, r, cap2)
      | _ => none
    | '.' :: t => some (.anyc, t, cap)
    | c :: t => if atomForbidden.contains c then none else some (.lit c, t, cap)

/-- Parses a sequence of atoms with postfix operators, stopping before a bar
or a closing parenthesis. -/
def parseSeqF : Nat → GoStr → Nat → Option (RE × GoStr × Nat)
  | 0, _, _ => none
  | fuel + 1, s, cap =>
    match s with
    | [] => some (.eps, [], cap)
    | '|' :: _ => some (.eps, s, cap)
    | ')' :: _ => some (.eps, s, cap)
    | _ =>
      match parseAtomF fuel s cap with
      | none => none
      | some (a, r, cap2) =>
        let (a2, r2) :=
          match r with
          | '*' :: rr => (RE.star a, rr)
          | '+' :: rr => (RE.seq a (RE.star a), rr)
          | '?' :: rr => (RE.alt a RE.eps, rr)
          | _ => (a, r)
        match parseSeqF fuel r2 cap2 with
        | none => none
        | some (b, r3, cap3) => some (.seq a2 b, r3, cap3)

/-- Parses alternations. -/
def parseAltF : Nat → GoStr → Nat → Option (RE × GoStr × Nat)
  | 0, _, _ => none
  | fuel + 1, s, cap =>
    match parseSeqF fuel s cap with
    | none => none
    | some (a, '|' :: r, cap2) =>
      match parseAltF fuel r cap2 with
      | none => none
      | some (b, r2, cap3) => some (.alt a b, r2, cap3)
    | some (a, r, cap2) => some (a, r, cap2)

end

/-- Counts trailing backslashes, to decide whether a final dollar sign is an
anchor or an escaped literal. -/
def leadingBackslashes : GoStr → Nat
  | '\\' :: t => leadingBackslashes t + 1
  | _ => 0

def stripEndAnchor (s : GoStr) : GoStr × Bool :=
  match s.reverse with
  | '$' :: t => if leadingBackslashes t % 2 = 0 then (t.reverse, true) else (s, false)
  | _ => (s, false)

/-- Embeds regexp.Compile (the RegexpCompileFunc collaborator) for the pattern
dialect the router emits.  A pattern the parser does not cover compiles to
none, which the caller surfaces as a compilation error. -/
def compileRegexp (s : GoStr) : Option Regexp :=
  let p1 := match s with
    | '^' :: t => (t, true)
    | _ => (s, false)
  let p2 := stripEndAnchor p1.1
  match parseAltF (s.length * 2 + 16) p2.1 0 with
  | some (re, [], caps) =>
    some { src := s, ast := re, anchStart := p1.2, anchEnd := p2.2, nCaps := caps }
  | _ => none

def matchFuel (re : RE) (s : GoStr) : Nat := (reSize re + 2) * (s.length + 2) * 8 + 64

/-- Attempts a match starting at the beginning of s, honouring the end anchor. -/
def matchHere (rx : Regexp) (s : GoStr) : MR :=
  reMatch (matchFuel rx.ast s) rx.ast s []
    (fun s2 caps => if rx.anchEnd then (if s2 = [] then .found caps else .nomatch) else .found caps)

/-- Unanchored search: tries each start position left to right. -/
def searchFrom (rx : Regexp) : GoStr → MR
  | [] => matchHere rx []
  | c :: t => (matchHere rx (c :: t)).orElse (fun _ => searchFrom rx t)

def matchMR (rx : Regexp) (s : GoStr) : MR :=
  if rx.anchStart then matchHere rx s else searchFrom rx s

/-- Embeds Regexp.MatchString. -/
def matchStringB (rx : Regexp) (s : GoStr) : Bool :=
  match matchMR rx s with
  | .found _ => true
  | _ => false

/-- Embeds Regexp.FindStringSubmatchIndex, returning the captures of the
leftmost-first match directly as substrings (the Go function returns index
pairs into the input; the content is the same). -/
def findCaps (rx : Regexp) (s : GoStr) : Option Caps :=
  match matchMR rx s with
  | .found caps => some caps
  | _ => none

/-! ## Template compilation (newRouteRegexp and its helpers) -/

/-- Embeds regexp.QuoteMeta: escape every regex metacharacter. -/
def regexSpecial : List Char :=
  ['\\', '.', '+', '*', '?', '(', ')', '|', '[', ']', Char.ofNat 123, Char.ofNat 125, '^', '$']

def quoteMeta : GoStr → GoStr
  | [] => []
  | c :: t => if regexSpecial.contains c then '\\' :: c :: quoteMeta t else c :: quoteMeta t

/-- Embeds strconv.Itoa for the non-negative numbers varGroupName uses: the
fuel bounds the digit count and one more than the number always suffices. -/
def natToStrAux : Nat → Nat → GoStr
  | 0, _ => []
  | fuel + 1, n =>
    if n < 10 then [digitChar n]
    else natToStrAux fuel (n / 10) ++ [digitChar (n % 10)]

def natToStr (n : Nat) : GoStr := natToStrAux (n + 1) n

/-- Embeds varGroupName: the capturing-group name for the indexed variable. -/
def varGroupName (idx : Nat) : GoStr := 'v' :: natToStr idx

inductive RegexpType where
  | path
  | host
  | prefixT
  | query
deriving DecidableEq

structure RouteRegexpOptions where
  strictSlash : Bool
  useEncodedPath : Bool
  strictQueryParamSep : Bool
deriving DecidableEq

/-- Embeds the routeRegexp struct: template, kind, options, the compiled full
pattern (with its source text), the reverse template, variable names, variable
validators and the wildcard host-port flag. -/
structure RouteRegexp where
  template : GoStr
  regexpType : RegexpType
  options : RouteRegexpOptions
  patternStr : GoStr
  regexp : Regexp
  reverse : GoStr
  varsN : List GoStr
  varsR : List Regexp
  wildcardHostPort : Bool
deriving DecidableEq

/-- Compilation errors of newRouteRegexp, by kind. -/
inductive RErr where
  | unbalancedBraces
  | emptyNameOrPattern
  | varPatternCompile
  | fullPatternCompile
deriving DecidableEq

/-- Result of newRouteRegexp: ok, an ordinary returned error, or the abort the
source performs through panic when capturing groups and variables disagree (or
when a query template has no equals sign). -/
inductive CompileResult where
  | ok (r : RouteRegexp)
  | err (e : RErr)
  | panicked
deriving DecidableEq

/-- Embeds braceIndices: first-level curly brace index pairs, or an error for
unbalanced braces.  The loop walks the string with its index, the brace depth,
the index of the current depth-one opening brace, and the pairs seen so far. -/
def biLoop : GoStr → Nat → Nat → Nat → List Nat → Except RErr (List Nat)
  | [], _, level, _, acc =>
    if level = 0 then .ok acc else .error .unbalancedBraces
  | c :: t, i, level, idx, acc =>
    if c = Char.ofNat 123 then
      biLoop t (i + 1) (level + 1) (if level = 0 then i else idx) acc
    else if c = Char.ofNat 125 then
      match level with
      | 0 => .error .unbalancedBraces
      | 1 => biLoop t (i + 1) 0 idx (acc ++ [idx, i + 1])
      | l + 2 => biLoop t (i + 1) (l + 1) idx acc
    else biLoop t (i + 1) level idx acc

def braceIndices (s : GoStr) : Except RErr (List Nat) := biLoop s 0 0 0 []

/-- Slice tpl[a:b] of a Go string. -/
def sliceL (s : GoStr) (a b : Nat) : GoStr := (s.take b).drop a

/-- Embeds the placeholder loop of newRouteRegexp.  Walks the brace index
pairs, producing the regexp pattern body, the reverse-template body, the
variable names and the compiled per-variable validators.  endPos is the end of
the previous placeholder, gi the group index. -/
def buildLoop (tpl defaultPattern : GoStr) :
    List Nat → Nat → Nat → Except RErr (GoStr × GoStr × List GoStr × List Regexp)
  | i1 :: i2 :: rest, endPos, gi =>
    let raw := sliceL tpl endPos i1
    let param := sliceL tpl (i1 + 1) (i2 - 1)
    let name := (cutList param ':').1
    let patt := if (cutList param ':').2.2 then (cutList param ':').2.1 else defaultPattern
    if name = [] ∨ patt = [] then .error .emptyNameOrPattern
    else
      match compileRegexp ('^' :: patt ++ ['$']) with
      | none => .error .varPatternCompile
      | some vr =>
        match buildLoop tpl defaultPattern rest i2 (gi + 1) with
        | .error e => .error e
        | .ok (pb, rb, vn, vrs) =>
          .ok (quoteMeta raw ++ gs ("(?P<") ++ varGroupName gi ++ '>' :: patt ++ ')' :: pb,
               raw ++ '%' :: 's' :: rb, name :: vn, vr :: vrs)
  | [_], _, _ => .error .unbalancedBraces
  | [], endPos, _ =>
    let raw := sliceL tpl endPos tpl.length
    .ok (quoteMeta raw, raw, [], [])

/-- Assembles the final routeRegexp after the full pattern compiled,
performing the capturing-group count check that the source enforces through
panic. -/
def assembleRR (template patternStr reverseBody : GoStr) (typ : RegexpType)
    (options : RouteRegexpOptions) (endSlash : Bool) (varsN : List GoStr)
    (varsR : List Regexp) (reg : Regexp) : CompileResult :=
  if reg.nCaps ≠ varsN.length then .panicked
  else
    .ok { template := template, regexpType := typ, options := options,
          patternStr := patternStr, regexp := reg,
          reverse := reverseBody ++ (if endSlash then ['/'] else []),
          varsN := varsN, varsR := varsR,
          wildcardHostPort := typ = .host && !containsC patternStr ':' }

/-- Embeds newRouteRegexp: parses a route template and builds a routeRegexp.
The query-kind access SplitN(template, "=", 2)[1] panics in Go when the
template has no equals sign, which is modelled as CompileResult.panicked. -/
def newRouteRegexp (tpl0 : GoStr) (typ : RegexpType) (options0 : RouteRegexpOptions) :
    CompileResult :=
  match braceIndices tpl0 with
  | .error e => .err e
  | .ok idxs =>
    let template := tpl0
    let defaultPattern :=
      if typ = .query then gs (".*")
      else if typ = .host then gs ("[^.]+")
      else gs ("[^/]+")
    let options := if typ ≠ .path then { options0 with strictSlash := false } else options0
    let tpl := if options.strictSlash ∧ hasSuffixC tpl0 '/' then tpl0.dropLast else tpl0
    let endSlash := options.strictSlash ∧ hasSuffixC tpl0 '/'
    match buildLoop tpl defaultPattern idxs 0 0 with
    | .error e => .err e
    | .ok (pb, rb, varsN, varsR) =>
      if typ = .query ∧ (cutList template '=').2.2 = false then .panicked
      else
        let patternStr := '^' :: pb
          ++ (if options.strictSlash then gs ("[/]?") else [])
          ++ (if typ = .query ∧ (cutList template '=').2.1 = [] then defaultPattern else [])
          ++ (if typ ≠ .prefixT then ['$'] else [])
        match compileRegexp patternStr with
        | none => .err .fullPatternCompile
        | some reg => assembleRR template patternStr rb typ options endSlash varsN varsR reg

/-! ## URL building (routeRegexp.url) -/

inductive UrlErr where
  | missingVariable (name : GoStr)
  | variableMismatch (value pattern : GoStr)
deriving DecidableEq

instance : DecidableEq (Except UrlErr GoStr) := fun a b =>
  match a, b with
  | .ok x, .ok y => if h : x = y then .isTrue (by rw [h]) else .isFalse (by simp [h])
  | .error x, .error y => if h : x = y then .isTrue (by rw [h]) else .isFalse (by simp [h])
  | .ok _, .error _ => .isFalse (by simp)
  | .error _, .ok _ => .isFalse (by simp)

/-- Embeds the first loop of routeRegexp.url: gather one value per declared
variable, percent-escaping query values, failing on the first missing one. -/
def urlValuesLoop (typ : RegexpType) : List GoStr → List (GoStr × GoStr) →
    Except UrlErr (List GoStr)
  | [], _ => .ok []
  | v :: rest, values =>
    match lookupV values v with
    | none => .error (.missingVariable v)
    | some value =>
      match urlValuesLoop typ rest values with
      | .error e => .error e
      | .ok tail => .ok ((if typ = .query then queryEscape value else value) :: tail)

/-- Embeds fmt.Sprintf for a format string whose only verbs are the percent-s
slots of a reverse template, applied to exactly as many values as slots. -/
def sprintfS : GoStr → List GoStr → GoStr
  | '%' :: 's' :: t, v :: vs => v ++ sprintfS t vs
  | '%' :: 's' :: t, [] => '%' :: 's' :: sprintfS t []
  | c :: t, vs => c :: sprintfS t vs
  | [], _ => []

/-- Embeds the error-reporting loop of routeRegexp.url: the first variable
whose value fails its own validator, together with the validator's source
(what Regexp.String returns in Go). -/
def firstFailingVar : List GoStr → List Regexp → List (GoStr × GoStr) →
    Option (GoStr × GoStr)
  | n :: ns, vr :: vrs, values =>
    if matchStringB vr ((lookupV values n).getD []) then firstFailingVar ns vrs values
    else some ((lookupV values n).getD [], vr.src)
  | _, _, _ => none

/-- Embeds routeRegexp.url: builds a URL part from the given values.  After
substitution the string is checked against the full pattern; on failure each
variable is re-checked individually, and if every one passes the loop falls
through and the substituted string is returned with no error, exactly as in
the source. -/
def RouteRegexp.url (r : RouteRegexp) (values : List (GoStr × GoStr)) :
    Except UrlErr GoStr :=
  match urlValuesLoop r.regexpType r.varsN values with
  | .error e => .error e
  | .ok urlValues =>
    if matchStringB r.regexp (sprintfS r.reverse urlValues) then
      .ok (sprintfS r.reverse urlValues)
    else
      match firstFailingVar r.varsN r.varsR values with
      | some (value, pat) => .error (.variableMismatch value pat)
      | none => .ok (sprintfS r.reverse urlValues)

/-! ## Requests, matching and variable extraction -/

/-- The read-only request fields the matching code consumes: URL.Path,
URL.EscapedPath(), URL.Host, URL.IsAbs(), the Host field and RawQuery. -/
structure Request where
  urlPath : GoStr
  urlEscapedPath : GoStr
  urlHost : GoStr
  urlIsAbs : Bool
  host : GoStr
  rawQuery : GoStr
deriving DecidableEq

/-- Embeds getHost: the URL host for absolute URLs, the Host field otherwise. -/
def getHost (r : Request) : GoStr := if r.urlIsAbs then r.urlHost else r.host

/-- Embeds the port stripping of Match and setMatch: cut the host at the
first colon when the pattern does not constrain the port. -/
def stripPort (host : GoStr) : GoStr :=
  match indexAny host [':'] with
  | some i => host.take i
  | none => host

/-- Handlers as the dispatch code distinguishes them: the nil handler, opaque
registered or fallback handlers identified by a number, a middleware-wrapped
handler, and the redirect handler setMatch installs. -/
inductive Handler where
  | nilH
  | handler (id : Nat)
  | wrapped (mw : Nat) (h : Handler)
  | redirectH (loc : GoStr) (code : Nat)
deriving DecidableEq

/-- The two match-failure sentinels ErrMethodMismatch and ErrNotFound. -/
inductive MatchErrE where
  | methodMismatchE
  | notFoundE
deriving DecidableEq

/-- Embeds the RouteMatch struct fields the dispatch code reads and writes
(the Route pointer is omitted; it is set by route code outside the sources). -/
structure RouteMatch where
  handlerM : Handler
  varsM : GoMap
  matchErr : Option MatchErrE
deriving DecidableEq

/-- Embeds getURLQuery: the single relevant key=value pair of the raw query,
or the empty string when the key is absent or the kind is not query. -/
def getURLQuery (r : RouteRegexp) (req : Request) : GoStr :=
  if r.regexpType ≠ .query then []
  else
    match findFirstQueryKey req.rawQuery (cutList r.template '=').1
        r.options.strictQueryParamSep with
    | some val => (cutList r.template '=').1 ++ '=' :: val
    | none => []

/-- Embeds routeRegexp.Match: host matching with optional port stripping,
query matching through getURLQuery, and path matching on the encoded or
decoded path as configured. -/
def RouteRegexp.Match (r : RouteRegexp) (req : Request) : Bool :=
  if r.regexpType = .host then
    matchStringB r.regexp
      (if r.wildcardHostPort then stripPort (getHost req) else getHost req)
  else if r.regexpType = .query then
    matchStringB r.regexp (getURLQuery r req)
  else
    matchStringB r.regexp (if r.options.useEncodedPath then req.urlEscapedPath else req.urlPath)

/-- Embeds extractVars: writes one entry per variable name into the output
map, initialising it when nil.  The Go function receives submatch index pairs
into the input; here the captures carry the same substrings directly. -/
def extractVarsGo : Caps → List GoStr → Nat → GoMap → GoMap
  | _, [], _, out => out
  | caps, name :: rest, i, out =>
    extractVarsGo caps rest (i + 1) (some (assocSet (out.getD []) name (capLookup caps i)))

/-- Embeds replaceURLPath, printing the request URL with a different path.
The requests the dispatcher serves carry relative URLs, for which the URL
serialisation is the path followed by the raw query when one is present. -/
def replaceURLPath (req : Request) (p : GoStr) : GoStr :=
  p ++ (if req.rawQuery = [] then [] else '?' :: req.rawQuery)

/-- Embeds the routeRegexpGroup struct. -/
structure RouteRegexpGroup where
  host : Option RouteRegexp
  path : Option RouteRegexp
  queries : List RouteRegexp
deriving DecidableEq

/-- The host section of setMatch: store host variables when the host part
declares any and the host matches. -/
def hostVarsStep (hOpt : Option RouteRegexp) (req : Request) (m : RouteMatch) : RouteMatch :=
  match hOpt with
  | some h =>
    if h.varsN ≠ [] then
      match findCaps h.regexp
          (if h.wildcardHostPort then stripPort (getHost req) else getHost req) with
      | some caps => { m with varsM := extractVarsGo caps h.varsN 0 m.varsM }
      | none => m
    else m
  | none => m

/-- The path section of setMatch: store path variables, then install the
strict-slash redirect handler when the trailing-separator presence of the
request path and of the template differ. -/
def pathStep (pOpt : Option RouteRegexp) (req : Request) (path : GoStr) (m : RouteMatch) :
    RouteMatch :=
  match pOpt with
  | some p =>
    let mv :=
      if p.varsN ≠ [] then
        match findCaps p.regexp path with
        | some caps => { m with varsM := extractVarsGo caps p.varsN 0 m.varsM }
        | none => m
      else m
    if p.options.strictSlash then
      if hasSuffixC path '/' ≠ hasSuffixC p.template '/' then
        { mv with handlerM := Handler.redirectH (replaceURLPath req
            (if hasSuffixC path '/' then req.urlPath.dropLast else req.urlPath ++ ['/'])) 301 }
      else mv
    else mv
  | none => m

/-- One iteration of the query section of setMatch. -/
def queryStep (req : Request) (acc : RouteMatch) (q : RouteRegexp) : RouteMatch :=
  if q.varsN ≠ [] then
    match findCaps q.regexp (getURLQuery q req) with
    | some caps => { acc with varsM := extractVarsGo caps q.varsN 0 acc.varsM }
    | none => acc
  else acc

/-- Embeds routeRegexpGroup.setMatch.  The useEncodedPath argument stands for
the owning Route's configuration flag that the source reads from its *Route
parameter.  Host variables, then path variables and the strict-slash redirect
replacement, then query variables, in source order. -/
def RouteRegexpGroup.setMatch (v : RouteRegexpGroup) (req : Request) (m : RouteMatch)
    (useEncodedPath : Bool) : RouteMatch :=
  v.queries.foldl (queryStep req)
    (pathStep v.path req (if useEncodedPath then req.urlEscapedPath else req.urlPath)
      (hostVarsStep v.host req m))

/-! ## Router dispatch (Router.Match) -/

/-- A route as Router.Match consumes it: a function that, like Route.Match,
reads and rewrites the match state and reports success. -/
abbrev RouteSim := RouteMatch → Bool × RouteMatch

/-- Modelled from the spec: the three outcomes of Route.Match for one request
(route.go is not among the provided sources).  A fully matching route resolves
its handler and variables and clears the failure kind; a route failing only on
the method records ErrMethodMismatch; any other failure leaves the state. -/
inductive RouteOutcome where
  | success (h : Handler) (vars : GoMap)
  | methodMismatch
  | otherFail
deriving DecidableEq

def RouteOutcome.isSuccess : RouteOutcome → Bool
  | .success _ _ => true
  | _ => false

def RouteOutcome.isMM : RouteOutcome → Bool
  | .methodMismatch => true
  | _ => false

/-- Modelled from the spec: Route.Match as a state transformer, at the
granularity the dispatch algorithm description gives. -/
def RouteOutcome.toSim : RouteOutcome → RouteSim
  | .success h vars => fun m => (true, { m with handlerM := h, varsM := vars, matchErr := none })
  | .methodMismatch => fun m => (false, { m with matchErr := some .methodMismatchE })
  | .otherFail => fun m => (false, m)

/-- The Router fields Router.Match reads. -/
structure RouterSim where
  routes : List RouteSim
  middlewares : List (Handler → Handler)
  notFoundHandler : Option Handler
  methodNotAllowedHandler : Option Handler

/-- Embeds the middleware-wrapping loop of Router.Match: indices from last to
first, each application wrapping the accumulated handler, so the head of the
list (the first registered middleware) ends outermost. -/
def mwChain : List (Handler → Handler) → Handler → Handler
  | [], h => h
  | mw :: rest, h => mw (mwChain rest h)

/-- Embeds the body of Router.Match: the route loop followed by the
method-mismatch and not-found fallback logic. -/
def routerLoop (mws : List (Handler → Handler)) (nf mna : Option Handler) :
    List RouteSim → RouteMatch → Bool × RouteMatch
  | [], m =>
    if m.matchErr = some .methodMismatchE then
      match mna with
      | some h => (true, { m with handlerM := h })
      | none => (false, m)
    else
      match nf with
      | some h => (true, { m with handlerM := h, matchErr := some .notFoundE })
      | none => (false, { m with matchErr := some .notFoundE })
  | route :: rest, m =>
    match route m with
    | (true, m2) =>
      if m2.matchErr = none then (true, { m2 with handlerM := mwChain mws m2.handlerM })
      else (true, m2)
    | (false, m2) => routerLoop mws nf mna rest m2

/-- Embeds Router.Match. -/
def RouterSim.Match (r : RouterSim) (m : RouteMatch) : Bool × RouteMatch :=
  routerLoop r.middlewares r.notFoundHandler r.methodNotAllowedHandler r.routes m

/-- The state a list of failing routes leaves behind. -/
def foldOut (outs : List RouteOutcome) (m : RouteMatch) : RouteMatch :=
  outs.foldl (fun acc o => (RouteOutcome.toSim o acc).2) m

/-! ## Request context (requestWithVars and Vars) -/

/-- The request-context slice the variable association uses: whether a value
is stored under the vars key, and which. -/
structure CtxReq where
  ctxVars : Option GoMap
deriving DecidableEq

/-- Embeds requestWithVars: shortcuts the operation when the vars are empty,
otherwise stores the map in the request context. -/
def requestWithVars (r : CtxReq) (vars : GoMap) : CtxReq :=
  if goMapLen vars = 0 then r else { r with ctxVars := some vars }

/-- Embeds mux.Vars: the stored map when the context carries one, nil
otherwise. -/
def Vars (r : CtxReq) : GoMap :=
  match r.ctxVars with
  | some v => v
  | none => none

/-! ## Observation helpers over compilation results

These let concrete statements about a successfully compiled template be
written as closed equations on the CompileResult. -/

/-- Whether the compiled routeRegexp matches a request. -/
def matchOkC (cr : CompileResult) (req : Request) : Option Bool :=
  match cr with
  | .ok r => some (r.Match req)
  | _ => none

/-- The wildcardHostPort flag of a compiled routeRegexp. -/
def wildcardOkC (cr : CompileResult) : Option Bool :=
  match cr with
  | .ok r => some r.wildcardHostPort
  | _ => none

/-- The handler left in the match state after setMatch runs for the compiled
routeRegexp as the path part of a group. -/
def handlerAfterC (cr : CompileResult) (req : Request) (m : RouteMatch)
    (useEncodedPath : Bool) : Option Handler :=
  match cr with
  | .ok r => some ((RouteRegexpGroup.mk none (some r) []).setMatch req m useEncodedPath).handlerM
  | _ => none

/-- The outcome of building a URL part from the compiled routeRegexp. -/
def urlOkC (cr : CompileResult) (values : List (GoStr × GoStr)) :
    Option (Except UrlErr GoStr) :=
  match cr with
  | .ok r => some (r.url values)
  | _ => none

/-- The variable map extracted by matching a string against the compiled
routeRegexp, starting from the nil map, as setMatch extracts it. -/
def extractOkC (cr : CompileResult) (s : GoStr) : Option GoMap :=
  match cr with
  | .ok r =>
    match findCaps r.regexp s with
    | some caps => some (extractVarsGo caps r.varsN 0 none)
    | none => some none
  | _ => none

/-- Whether every value in the map passes its own variable's validator for
the compiled routeRegexp (the individual re-check loop finds no failure). -/
def validatorsOkC (cr : CompileResult) (values : List (GoStr × GoStr)) : Option Bool :=
  match cr with
  | .ok r => some (firstFailingVar r.varsN r.varsR values).isNone
  | _ => none

/-- Whether the full compiled pattern genuinely fails to match a string (a
definite non-match, not a budget exhaustion). -/
def noMatchOkC (cr : CompileResult) (s : GoStr) : Option Bool :=
  match cr with
  | .ok r => some (matchMR r.regexp s = MR.nomatch)
  | _ => none

/-! ## Helper lemmas about the dispatch loop -/

theorem routerLoop_skip (mws : List (Handler → Handler)) (nf mna : Option Handler) :
    ∀ outs : List RouteOutcome, (∀ o ∈ outs, o.isSuccess = false) →
    ∀ (l : List RouteSim) (m : RouteMatch),
    routerLoop mws nf mna (outs.map RouteOutcome.toSim ++ l) m
      = routerLoop mws nf mna l (foldOut outs m) := by
  intro outs
  induction outs with
  | nil => intro _ l m; rfl
  | cons o rest ih =>
    intro hns l m
    have ho : o.isSuccess = false := hns o (by simp)
    have hrest : ∀ o2 ∈ rest, o2.isSuccess = false := fun o2 h2 => hns o2 (by simp [h2])
    have hfold : foldOut (o :: rest) m = foldOut rest ((RouteOutcome.toSim o m).2) := by
      simp [foldOut]
    cases o with
    | success h vars => simp [RouteOutcome.isSuccess] at ho
    | methodMismatch =>
      rw [hfold]
      simp only [List.map_cons, List.cons_append, routerLoop, RouteOutcome.toSim]
      exact ih hrest l _
    | otherFail =>
      rw [hfold]
      simp only [List.map_cons, List.cons_append, routerLoop, RouteOutcome.toSim]
      exact ih hrest l _

theorem foldOut_eq (outs : List RouteOutcome) (hns : ∀ o ∈ outs, o.isSuccess = false)
    (h0 : Handler) (v0 : GoMap) (e0 : Option MatchErrE) :
    foldOut outs ⟨h0, v0, e0⟩
      = ⟨h0, v0, if outs.any RouteOutcome.isMM then some .methodMismatchE else e0⟩ := by
  induction outs generalizing e0 with
  | nil => simp [foldOut]
  | cons o rest ih =>
    have ho : o.isSuccess = false := hns o (by simp)
    have hrest : ∀ o2 ∈ rest, o2.isSuccess = false := fun o2 h2 => hns o2 (by simp [h2])
    cases o with
    | success h vars => simp [RouteOutcome.isSuccess] at ho
    | methodMismatch =>
      have : foldOut (RouteOutcome.methodMismatch :: rest) (⟨h0, v0, e0⟩ : RouteMatch)
          = foldOut rest ⟨h0, v0, some .methodMismatchE⟩ := by
        simp [foldOut, RouteOutcome.toSim]
      rw [this, ih hrest]
      cases hb : rest.any RouteOutcome.isMM <;> simp [List.any_cons, hb, RouteOutcome.isMM]
    | otherFail =>
      have : foldOut (RouteOutcome.otherFail :: rest) (⟨h0, v0, e0⟩ : RouteMatch)
          = foldOut rest ⟨h0, v0, e0⟩ := by
        simp [foldOut, RouteOutcome.toSim]
      rw [this, ih hrest]
      simp [List.any_cons, RouteOutcome.isMM]

/-! ## Claim C1: middleware wrapping -/

/-- C1 (amended).  A handler resolved from a successful route match with no
match error is wrapped by iterating the middlewares from last registered to
first, each application wrapping the previous result, so the first-registered
middleware ends outermost and executes first on the way in; handlers resolved
through the method-not-allowed or not-found fallbacks are used unwrapped. -/
theorem c1_middleware_wrap :
    (∀ (outsPre : List RouteOutcome) (h : Handler) (vars : GoMap) (rest : List RouteSim)
        (mws : List (Handler → Handler)) (nf mna : Option Handler) (m0 : RouteMatch),
      (∀ o ∈ outsPre, o.isSuccess = false) →
      RouterSim.Match
          ⟨outsPre.map RouteOutcome.toSim ++ RouteOutcome.toSim (.success h vars) :: rest,
            mws, nf, mna⟩ m0
        = (true, ⟨mwChain mws h, vars, none⟩))
    ∧ (∀ (outs : List RouteOutcome) (hh : Handler) (mws : List (Handler → Handler))
          (nf : Option Handler) (h0 : Handler) (v0 : GoMap),
        (∀ o ∈ outs, o.isSuccess = false) → outs.any RouteOutcome.isMM = true →
        RouterSim.Match ⟨outs.map RouteOutcome.toSim, mws, nf, some hh⟩ ⟨h0, v0, none⟩
          = (true, ⟨hh, v0, some .methodMismatchE⟩))
    ∧ (∀ (outs : List RouteOutcome) (hh : Handler) (mws : List (Handler → Handler))
          (mna : Option Handler) (h0 : Handler) (v0 : GoMap),
        (∀ o ∈ outs, o.isSuccess = false) → outs.any RouteOutcome.isMM = false →
        RouterSim.Match ⟨outs.map RouteOutcome.toSim, mws, some hh, mna⟩ ⟨h0, v0, none⟩
          = (true, ⟨hh, v0, some .notFoundE⟩)) := by
  refine ⟨?_, ?_, ?_⟩
  · intro outsPre h vars rest mws nf mna m0 hns
    show routerLoop mws nf mna _ m0 = _
    rw [routerLoop_skip mws nf mna outsPre hns]
    simp [routerLoop, RouteOutcome.toSim, mwChain]
  · intro outs hh mws nf h0 v0 hns hmm
    show routerLoop mws nf (some hh) _ _ = _
    have := routerLoop_skip mws nf (some hh) outs hns [] ⟨h0, v0, none⟩
    rw [List.append_nil] at this
    rw [this, foldOut_eq outs hns h0 v0 none, hmm]
    simp [routerLoop]
  · intro outs hh mws mna h0 v0 hns hmm
    show routerLoop mws (some hh) mna _ _ = _
    have := routerLoop_skip mws (some hh) mna outs hns [] ⟨h0, v0, none⟩
    rw [List.append_nil] at this
    rw [this, foldOut_eq outs hns h0 v0 none, hmm]
    simp [routerLoop]

/-- C1 witness: one failing route followed by a success, one middleware; the
resolved handler is the middleware wrapping of the route handler. -/
theorem c1_middleware_wrap_witness :
    RouterSim.Match
        ⟨[RouteOutcome.otherFail].map RouteOutcome.toSim
            ++ RouteOutcome.toSim (.success (.handler 2) none) :: [],
          [fun h => .wrapped 5 h], none, none⟩ ⟨.nilH, none, none⟩
      = (true, ⟨.wrapped 5 (.handler 2), none, none⟩) :=
  c1_middleware_wrap.1 [RouteOutcome.otherFail] (.handler 2) none []
    [fun h => .wrapped 5 h] none none ⟨.nilH, none, none⟩ (by decide)

/-- C1 counterexample.  With middlewares m0 then m1 registered in that order,
a matched handler resolves to m0 (m1 h) — the first-registered middleware is
outermost — not m1 (m0 h) as the claim predicts; and a configured not-found
handler is resolved without any middleware wrapping. -/
theorem c1_counterexample :
    (RouterSim.Match
        ⟨[RouteOutcome.toSim (.success (.handler 7) none)],
          [fun h => .wrapped 0 h, fun h => .wrapped 1 h], none, none⟩
        ⟨.nilH, none, none⟩).2.handlerM
      = Handler.wrapped 0 (.wrapped 1 (.handler 7))
    ∧ Handler.wrapped 0 (.wrapped 1 (.handler 7)) ≠ Handler.wrapped 1 (.wrapped 0 (.handler 7))
    ∧ (RouterSim.Match ⟨[], [fun h => .wrapped 0 h], some (.handler 9), none⟩
        ⟨.nilH, none, none⟩).2.handlerM = Handler.handler 9
    ∧ Handler.handler 9 ≠ Handler.wrapped 0 (.handler 9) := by
  refine ⟨rfl, by decide, rfl, by decide⟩

/-! ## Claim C2: not-found and method-mismatch fallback selection -/

/-- C2 (amended).  When no route fully matches: if some attempted route failed
specifically on the method, the failure kind is MethodMismatch and the
method-not-allowed handler is used when configured, with no handler otherwise —
the not-found handler is not consulted in that case; if no route failed on the
method, the failure kind is NotFound and the not-found handler is used when
configured, with no handler otherwise.  In particular, with both fallback
handlers configured, a method-mismatch failure resolves to the
method-not-allowed handler. -/
theorem c2_fallback_selection :
    (∀ (outs : List RouteOutcome) (hh : Handler) (mws : List (Handler → Handler))
        (nf : Option Handler) (h0 : Handler) (v0 : GoMap),
      (∀ o ∈ outs, o.isSuccess = false) → outs.any RouteOutcome.isMM = true →
      RouterSim.Match ⟨outs.map RouteOutcome.toSim, mws, nf, some hh⟩ ⟨h0, v0, none⟩
        = (true, ⟨hh, v0, some .methodMismatchE⟩))
    ∧ (∀ (outs : List RouteOutcome) (mws : List (Handler → Handler))
          (nf : Option Handler) (h0 : Handler) (v0 : GoMap),
        (∀ o ∈ outs, o.isSuccess = false) → outs.any RouteOutcome.isMM = true →
        RouterSim.Match ⟨outs.map RouteOutcome.toSim, mws, nf, none⟩ ⟨h0, v0, none⟩
          = (false, ⟨h0, v0, some .methodMismatchE⟩))
    ∧ (∀ (outs : List RouteOutcome) (hh : Handler) (mws : List (Handler → Handler))
          (mna : Option Handler) (h0 : Handler) (v0 : GoMap),
        (∀ o ∈ outs, o.isSuccess = false) → outs.any RouteOutcome.isMM = false →
        RouterSim.Match ⟨outs.map RouteOutcome.toSim, mws, some hh, mna⟩ ⟨h0, v0, none⟩
          = (true, ⟨hh, v0, some .notFoundE⟩))
    ∧ (∀ (outs : List RouteOutcome) (mws : List (Handler → Handler))
          (mna : Option Handler) (h0 : Handler) (v0 : GoMap),
        (∀ o ∈ outs, o.isSuccess = false) → outs.any RouteOutcome.isMM = false →
        RouterSim.Match ⟨outs.map RouteOutcome.toSim, mws, none, mna⟩ ⟨h0, v0, none⟩
          = (false, ⟨h0, v0, some .notFoundE⟩))
    ∧ (RouterSim.Match
          ⟨[RouteOutcome.toSim .methodMismatch], [], some (.handler 2), some (.handler 1)⟩
          ⟨.nilH, none, none⟩).2.handlerM = Handler.handler 1 := by
  have skip : ∀ (mws : List (Handler → Handler)) (nf mna : Option Handler)
      (outs : List RouteOutcome) (h0 : Handler) (v0 : GoMap),
      (∀ o ∈ outs, o.isSuccess = false) →
      routerLoop mws nf mna (outs.map RouteOutcome.toSim) ⟨h0, v0, none⟩
        = routerLoop mws nf mna []
            ⟨h0, v0, if outs.any RouteOutcome.isMM then some .methodMismatchE else none⟩ := by
    intro mws nf mna outs h0 v0 hns
    have := routerLoop_skip mws nf mna outs hns [] ⟨h0, v0, none⟩
    rw [List.append_nil] at this
    rw [this, foldOut_eq outs hns h0 v0 none]
  refine ⟨?_, ?_, ?_, ?_, rfl⟩
  · intro outs hh mws nf h0 v0 hns hmm
    show routerLoop _ _ _ _ _ = _
    rw [skip mws nf (some hh) outs h0 v0 hns, hmm]
    simp [routerLoop]
  · intro outs mws nf h0 v0 hns hmm
    show routerLoop _ _ _ _ _ = _
    rw [skip mws nf none outs h0 v0 hns, hmm]
    simp [routerLoop]
  · intro outs hh mws mna h0 v0 hns hmm
    show routerLoop _ _ _ _ _ = _
    rw [skip mws (some hh) mna outs h0 v0 hns, hmm]
    simp [routerLoop]
  · intro outs mws mna h0 v0 hns hmm
    show routerLoop _ _ _ _ _ = _
    rw [skip mws none mna outs h0 v0 hns, hmm]
    simp [routerLoop]

/-- C2 witness: a single method-mismatch failure with both fallback handlers
configured resolves to the method-not-allowed handler and records
MethodMismatch. -/
theorem c2_fallback_selection_witness :
    RouterSim.Match
        ⟨[RouteOutcome.methodMismatch].map RouteOutcome.toSim, [],
          some (.handler 2), some (.handler 1)⟩ ⟨.nilH, none, none⟩
      = (true, ⟨.handler 1, none, some .methodMismatchE⟩) :=
  c2_fallback_selection.1 [RouteOutcome.methodMismatch] (.handler 1) []
    (some (.handler 2)) .nilH none (by decide) (by decide)

/-- C2 counterexample.  A method-mismatch failure with no method-not-allowed
handler but a configured not-found handler: the router reports no handler and
keeps the MethodMismatch failure kind, instead of resolving to the not-found
handler with NotFound recorded as the claim's otherwise-branch predicts. -/
theorem c2_counterexample :
    RouterSim.Match ⟨[RouteOutcome.toSim .methodMismatch], [], some (.handler 5), none⟩
        ⟨.nilH, none, none⟩
      = (false, ⟨.nilH, none, some .methodMismatchE⟩)
    ∧ ((false, (⟨.nilH, none, some .methodMismatchE⟩ : RouteMatch)) : Bool × RouteMatch)
      ≠ (true, ⟨.handler 5, none, some .notFoundE⟩) := by
  refine ⟨rfl, by decide⟩

/-! ## Claim C10: variable maps in the request context -/

/-- C10.  Attaching a nil or empty variable map returns the request unchanged;
Vars on a fresh request with such a map attached returns the nil map; and on a
fresh request, Vars returns a non-nil map exactly when the attached map holds
at least one variable. -/
theorem c10_vars_context :
    (∀ r : CtxReq, requestWithVars r none = r)
    ∧ (∀ r : CtxReq, requestWithVars r (some []) = r)
    ∧ Vars (requestWithVars ⟨none⟩ none) = none
    ∧ Vars (requestWithVars ⟨none⟩ (some [])) = none
    ∧ (∀ vars : GoMap, Vars (requestWithVars ⟨none⟩ vars) ≠ none ↔ 0 < goMapLen vars) := by
  refine ⟨fun r => rfl, fun r => rfl, rfl, rfl, ?_⟩
  intro vars
  match vars with
  | none => simp [requestWithVars, Vars, goMapLen]
  | some [] => simp [requestWithVars, Vars, goMapLen]
  | some (x :: xs) =>
    constructor
    · intro _; simp [goMapLen]
    · intro _
      simp [requestWithVars, goMapLen, Vars]

/-! ## Helper lemmas about setMatch and assembleRR -/

theorem hostVarsStep_handlerM (hOpt : Option RouteRegexp) (req : Request) (m : RouteMatch) :
    (hostVarsStep hOpt req m).handlerM = m.handlerM := by
  unfold hostVarsStep
  split
  · split
    · split <;> rfl
    · rfl
  · rfl

theorem queryStep_handlerM (req : Request) (acc : RouteMatch) (q : RouteRegexp) :
    (queryStep req acc q).handlerM = acc.handlerM := by
  unfold queryStep
  split
  · split <;> rfl
  · rfl

theorem queryFold_handlerM (req : Request) :
    ∀ (qs : List RouteRegexp) (acc : RouteMatch),
      (qs.foldl (queryStep req) acc).handlerM = acc.handlerM := by
  intro qs
  induction qs with
  | nil => intro acc; rfl
  | cons q rest ih =>
    intro acc
    rw [List.foldl_cons, ih, queryStep_handlerM]

theorem assembleRR_ok (template patternStr reverseBody : GoStr) (typ : RegexpType)
    (options : RouteRegexpOptions) (endSlash : Bool) (varsN : List GoStr)
    (varsR : List Regexp) (reg : Regexp) (r : RouteRegexp) :
    assembleRR template patternStr reverseBody typ options endSlash varsN varsR reg = .ok r →
    r.patternStr = patternStr ∧ r.regexp = reg ∧ r.varsN = varsN ∧ r.regexpType = typ
      ∧ r.wildcardHostPort = (typ = .host && !containsC patternStr ':')
      ∧ reg.nCaps = varsN.length := by
  unfold assembleRR
  split
  next hne => intro h; exact absurd h (by simp)
  next hne =>
    intro h
    injection h with h2
    subst h2
    exact ⟨rfl, rfl, rfl, rfl, rfl, by omega⟩

/-! ## Claim C6: strict-slash redirect -/

/-- C6.  On a full route match, when the winning route's path part has
strictSlash set and the trailing-separator presence of the matched path
differs from the template's, setMatch replaces the resolved handler with a
permanent redirect (301) to the corrected path; otherwise the handler in the
match state is left untouched.  In particular the template /path/ compiled
with strictSlash redirects the request path /path to /path/, and the template
/path compiled without strictSlash genuinely does not match the request path
/path/. -/
theorem c6_strict_slash :
    (∀ (v : RouteRegexpGroup) (pr : RouteRegexp) (req : Request) (m : RouteMatch)
        (useEnc : Bool),
      v.path = some pr → pr.options.strictSlash = true →
      hasSuffixC (if useEnc then req.urlEscapedPath else req.urlPath) '/'
          ≠ hasSuffixC pr.template '/' →
      (v.setMatch req m useEnc).handlerM
        = Handler.redirectH (replaceURLPath req
            (if hasSuffixC (if useEnc then req.urlEscapedPath else req.urlPath) '/'
             then req.urlPath.dropLast else req.urlPath ++ ['/'])) 301)
    ∧ (∀ (v : RouteRegexpGroup) (pr : RouteRegexp) (req : Request) (m : RouteMatch)
          (useEnc : Bool),
        v.path = some pr →
        (pr.options.strictSlash = false
          ∨ hasSuffixC (if useEnc then req.urlEscapedPath else req.urlPath) '/'
              = hasSuffixC pr.template '/') →
        (v.setMatch req m useEnc).handlerM = m.handlerM)
    ∧ handlerAfterC (newRouteRegexp (gs ("/path/")) .path ⟨true, false, false⟩)
        ⟨gs ("/path"), gs ("/path"), [], false, [], []⟩ ⟨.handler 3, none, none⟩ false
        = some (.redirectH (gs ("/path/")) 301)
    ∧ matchOkC (newRouteRegexp (gs ("/path")) .path ⟨false, false, false⟩)
        ⟨gs ("/path/"), gs ("/path/"), [], false, [], []⟩ = some false
    ∧ noMatchOkC (newRouteRegexp (gs ("/path")) .path ⟨false, false, false⟩)
        (gs ("/path/")) = some true := by
  refine ⟨?_, ?_, by decide, by decide, by decide⟩
  · intro v pr req m useEnc hp hss hdiff
    unfold RouteRegexpGroup.setMatch
    rw [queryFold_handlerM]
    rw [hp]
    unfold pathStep
    dsimp only
    rw [if_pos hss, if_pos hdiff]
  · intro v pr req m useEnc hp hor
    unfold RouteRegexpGroup.setMatch
    rw [queryFold_handlerM]
    rw [hp]
    unfold pathStep
    dsimp only
    have hmv : ∀ mv : RouteMatch,
        (if pr.varsN ≠ [] then
          match findCaps pr.regexp (if useEnc then req.urlEscapedPath else req.urlPath) with
          | some caps => { mv with varsM := extractVarsGo caps pr.varsN 0 mv.varsM }
          | none => mv
         else mv).handlerM = mv.handlerM := by
      intro mv
      split
      · split <;> rfl
      · rfl
    rcases hor with hss | heq
    · rw [if_neg (by simp [hss])]
      rw [hmv, hostVarsStep_handlerM]
    · by_cases hss : pr.options.strictSlash = true
      · rw [if_pos hss, if_neg (by simp [heq])]
        rw [hmv, hostVarsStep_handlerM]
      · rw [if_neg hss]
        rw [hmv, hostVarsStep_handlerM]

/-- C6 witness: a concrete path part with strictSlash and template /x/ against
request path /x installs the redirect handler to /x/. -/
theorem c6_strict_slash_witness :
    ((RouteRegexpGroup.mk none
        (some ⟨gs ("/x/"), .path, ⟨true, false, false⟩, [], ⟨[], .eps, true, true, 0⟩,
          [], [], [], false⟩) []).setMatch
      ⟨gs ("/x"), gs ("/x"), [], false, [], []⟩ ⟨.handler 3, none, none⟩ false).handlerM
      = Handler.redirectH (gs ("/x/")) 301 :=
  (c6_strict_slash.1 _
    ⟨gs ("/x/"), .path, ⟨true, false, false⟩, [], ⟨[], .eps, true, true, 0⟩, [], [], [], false⟩
    ⟨gs ("/x"), gs ("/x"), [], false, [], []⟩ ⟨.handler 3, none, none⟩ false
    rfl rfl (by decide)).trans (by decide)

/-! ## Claim C7: wildcard host port -/

/-- C7.  For every host-kind template the compiler accepts, wildcardHostPort
is true exactly when the compiled pattern string contains no literal colon;
and concretely the compiled host template example.com has the flag set and
matches the request host example.com:8080 because the port is stripped before
matching. -/
theorem c7_wildcard_host_port :
    (∀ (tpl : GoStr) (opts : RouteRegexpOptions) (r : RouteRegexp),
      newRouteRegexp tpl .host opts = .ok r →
      r.wildcardHostPort = !containsC r.patternStr ':')
    ∧ wildcardOkC (newRouteRegexp (gs ("example.com")) .host ⟨false, false, false⟩) = some true
    ∧ matchOkC (newRouteRegexp (gs ("example.com")) .host ⟨false, false, false⟩)
        ⟨[], [], [], false, gs ("example.com:8080"), []⟩ = some true := by
  refine ⟨?_, by decide, by decide⟩
  intro tpl opts r h
  unfold newRouteRegexp at h
  split at h
  · exact absurd h (by simp)
  · dsimp only at h
    split at h
    · exact absurd h (by simp)
    · split at h
      · exact absurd h (by simp)
      · split at h
        · exact absurd h (by simp)
        · obtain ⟨hp, _, _, _, hw, _⟩ := assembleRR_ok _ _ _ _ _ _ _ _ _ _ h
          rw [hw, hp]
          simp

/-- C7 witness: the general colon criterion instantiated at the compiled host
template example.com. -/
theorem c7_wildcard_host_port_witness :
    (match newRouteRegexp (gs ("example.com")) .host ⟨false, false, false⟩ with
      | .ok r => r.wildcardHostPort = !containsC r.patternStr ':'
      | .err _ => False
      | .panicked => False) := by
  cases hc : newRouteRegexp (gs ("example.com")) .host ⟨false, false, false⟩ with
  | ok r => exact c7_wildcard_host_port.1 (gs ("example.com")) ⟨false, false, false⟩ r hc
  | err e => exact absurd hc (by cases e <;> decide)
  | panicked => exact absurd hc (by decide)

/-! ## Claim C8: capturing-group count -/

/-- C8.  Every routeRegexp that newRouteRegexp returns without aborting has
exactly as many capturing groups in its compiled pattern as declared
variables; and a template whose custom sub-pattern introduces an extra
capturing group makes compilation abort (the panic in the source). -/
theorem c8_capture_group_count :
    (∀ (tpl : GoStr) (typ : RegexpType) (opts : RouteRegexpOptions) (r : RouteRegexp),
      newRouteRegexp tpl typ opts = .ok r → r.regexp.nCaps = r.varsN.length)
    ∧ newRouteRegexp (gs ("/\x7bid:(ab)\x7d")) .path ⟨false, false, false⟩
        = .panicked := by
  refine ⟨?_, by decide⟩
  intro tpl typ opts r h
  unfold newRouteRegexp at h
  split at h
  · exact absurd h (by simp)
  · dsimp only at h
    split at h
    · exact absurd h (by simp)
    · split at h
      · exact absurd h (by simp)
      · split at h
        · exact absurd h (by simp)
        · obtain ⟨_, hr, hv, _, _, hc⟩ := assembleRR_ok _ _ _ _ _ _ _ _ _ _ h
          rw [hr, hv, hc]

/-- C8 witness: the group-count equation instantiated at a concretely compiled
template. -/
theorem c8_capture_group_count_witness :
    (match newRouteRegexp (gs ("/a")) .path ⟨false, false, false⟩ with
      | .ok r => r.regexp.nCaps = r.varsN.length
      | .err _ => False
      | .panicked => False) := by
  cases hc : newRouteRegexp (gs ("/a")) .path ⟨false, false, false⟩ with
  | ok r => exact c8_capture_group_count.1 (gs ("/a")) .path ⟨false, false, false⟩ r hc
  | err e => exact absurd hc (by cases e <;> decide)
  | panicked => exact absurd hc (by decide)

/-! ## Claim C3: URL-builder error reporting -/

/-- C3 (amended).  In routeRegexp.url, a missing variable is reported as a
missing-variable error; when the substituted string fails the full-pattern
check, the variables are re-checked individually and the first failing one is
reported as a variable-mismatch error carrying its value and expected
sub-pattern; but when every value individually validates and the whole
substituted string still does not match, the substituted string is returned
with no error — no generic mismatch is surfaced. -/
theorem c3_url_builder_errors :
    (∀ (r : RouteRegexp) (values : List (GoStr × GoStr)) (us : List GoStr),
      urlValuesLoop r.regexpType r.varsN values = .ok us →
      matchStringB r.regexp (sprintfS r.reverse us) = false →
      firstFailingVar r.varsN r.varsR values = none →
      r.url values = .ok (sprintfS r.reverse us))
    ∧ (∀ (r : RouteRegexp) (values : List (GoStr × GoStr)) (us : List GoStr)
          (value pat : GoStr),
        urlValuesLoop r.regexpType r.varsN values = .ok us →
        matchStringB r.regexp (sprintfS r.reverse us) = false →
        firstFailingVar r.varsN r.varsR values = some (value, pat) →
        r.url values = .error (.variableMismatch value pat))
    ∧ (∀ (r : RouteRegexp) (values : List (GoStr × GoStr)) (name : GoStr),
        urlValuesLoop r.regexpType r.varsN values = .error (.missingVariable name) →
        r.url values = .error (.missingVariable name)) := by
  refine ⟨?_, ?_, ?_⟩
  · intro r values us h1 h2 h3
    simp [RouteRegexp.url, h1, h2, h3]
  · intro r values us value pat h1 h2 h3
    simp [RouteRegexp.url, h1, h2, h3]
  · intro r values name h1
    simp [RouteRegexp.url, h1]

/-- C3 witness: a routeRegexp with no variables whose reverse template does
not match its pattern: building returns the non-matching string with no
error. -/
theorem c3_url_builder_errors_witness :
    RouteRegexp.url
        ⟨gs ("b"), .path, ⟨false, false, false⟩, gs ("^a$"),
          ⟨gs ("^a$"), .lit 'a', true, true, 0⟩, gs ("b"), [], [], false⟩ []
      = .ok (gs ("b")) :=
  (c3_url_builder_errors.1
    ⟨gs ("b"), .path, ⟨false, false, false⟩, gs ("^a$"),
      ⟨gs ("^a$"), .lit 'a', true, true, 0⟩, gs ("b"), [], [], false⟩
    [] [] rfl (by decide) rfl).trans (by decide)

/-- C3 counterexample.  For the compiled query template q={v:[a-z ]+} and the
value "a b" — which satisfies its own validator — the builder query-escapes
the value to "a+b", the substituted string "q=a+b" genuinely fails the
full-pattern check, yet url returns it with no error: the builder does return
a non-matching URL without an error, against the claim. -/
theorem c3_counterexample :
    urlOkC (newRouteRegexp (gs ("q=\x7bv:[a-z ]+\x7d")) .query ⟨false, false, false⟩)
        [(gs ("v"), gs ("a b"))] = some (.ok (gs ("q=a+b")))
    ∧ noMatchOkC (newRouteRegexp (gs ("q=\x7bv:[a-z ]+\x7d")) .query ⟨false, false, false⟩)
        (gs ("q=a+b")) = some true
    ∧ validatorsOkC (newRouteRegexp (gs ("q=\x7bv:[a-z ]+\x7d")) .query ⟨false, false, false⟩)
        [(gs ("v"), gs ("a b"))] = some true := by
  refine ⟨by decide, by decide, by decide⟩

/-! ## Claim C4: build/match round trip -/

/-- C4 (amended).  For every compiled pattern and variable map that assigns to
each declared variable a value satisfying that variable's own validator,
building the URL component succeeds without error; but matching the built
string against the compiled pattern need not re-extract the original map, so
the round-trip law fails in general. -/
theorem c4_roundtrip_build :
    ∀ (r : RouteRegexp) (values : List (GoStr × GoStr)) (us : List GoStr),
      urlValuesLoop r.regexpType r.varsN values = .ok us →
      firstFailingVar r.varsN r.varsR values = none →
      r.url values = .ok (sprintfS r.reverse us) := by
  intro r values us h1 h3
  by_cases hm : matchStringB r.regexp (sprintfS r.reverse us) = true
  · simp [RouteRegexp.url, h1, hm]
  · simp [RouteRegexp.url, h1, hm, h3]

/-- C4 witness: building from a concrete variable-free routeRegexp succeeds. -/
theorem c4_roundtrip_build_witness :
    RouteRegexp.url
        ⟨gs ("c"), .path, ⟨false, false, false⟩, gs ("^c$"),
          ⟨gs ("^c$"), .lit 'c', true, true, 0⟩, gs ("c"), [], [], false⟩ []
      = .ok (gs ("c")) :=
  (c4_roundtrip_build
    ⟨gs ("c"), .path, ⟨false, false, false⟩, gs ("^c$"),
      ⟨gs ("^c$"), .lit 'c', true, true, 0⟩, gs ("c"), [], [], false⟩
    [] [] rfl rfl).trans (by decide)

/-- C4 counterexample.  For the compiled template /{a}{b} with values a = "a"
and b = "bc" — each satisfying its own validator — the builder produces /abc
without error, but matching /abc re-extracts a = "ab", b = "c", a different
variable map: match(build(values)) is not values. -/
theorem c4_counterexample :
    urlOkC (newRouteRegexp (gs ("/\x7ba\x7d\x7bb\x7d")) .path ⟨false, false, false⟩)
        [(gs ("a"), gs ("a")), (gs ("b"), gs ("bc"))] = some (.ok (gs ("/abc")))
    ∧ extractOkC (newRouteRegexp (gs ("/\x7ba\x7d\x7bb\x7d")) .path ⟨false, false, false⟩)
        (gs ("/abc")) = some (some [(gs ("a"), gs ("ab")), (gs ("b"), gs ("c"))])
    ∧ (some [(gs ("a"), gs ("ab")), (gs ("b"), gs ("c"))] : GoMap)
        ≠ some [(gs ("a"), gs ("a")), (gs ("b"), gs ("bc"))]
    ∧ validatorsOkC (newRouteRegexp (gs ("/\x7ba\x7d\x7bb\x7d")) .path ⟨false, false, false⟩)
        [(gs ("a"), gs ("a")), (gs ("b"), gs ("bc"))] = some true := by
  refine ⟨by decide, by decide, by decide, by decide⟩

/-! ## Helper lemmas for the query-lookup refinement -/

theorem qu_cons_ne (c : Char) (t : GoStr) (hc : ¬c = '%') :
    queryUnescape (c :: t) =
      if c = '+' then (queryUnescape t).map (fun r => ' ' :: r)
      else (queryUnescape t).map (fun r => c :: r) := by
  rcases t with _ | ⟨a, t1⟩
  · simp [queryUnescape, hc]
  · rcases t1 with _ | ⟨b, t2⟩
    · simp [queryUnescape, hc]
    · simp [queryUnescape, hc]

theorem unescape_len_aux : ∀ (n : Nat) (s : GoStr), s.length ≤ n →
    ∀ t, queryUnescape s = some t → t.length ≤ s.length := by
  intro n
  induction n with
  | zero =>
    intro s hs t h
    have hnil : s = [] := List.length_eq_zero.mp (Nat.le_zero.mp hs)
    subst hnil
    simp [queryUnescape] at h
    subst h
    simp
  | succ n ih =>
    intro s hs t h
    rcases s with _ | ⟨c, rest⟩
    · simp [queryUnescape] at h
      subst h
      simp
    · by_cases hc : c = '%'
      · rcases rest with _ | ⟨a, rest2⟩
        · simp [queryUnescape, hc] at h
        · rcases rest2 with _ | ⟨b, t2⟩
          · simp [queryUnescape, hc] at h
          · rcases ha : unhex a with _ | ha2
            · simp [queryUnescape, hc, ha] at h
            · rcases hb : unhex b with _ | hb2
              · simp [queryUnescape, hc, ha, hb] at h
              · rcases hqu : queryUnescape t2 with _ | r
                · simp [queryUnescape, hc, ha, hb, hqu] at h
                · have hr : r.length ≤ t2.length := ih t2 (by simp at hs; omega) r hqu
                  simp [queryUnescape, hc, ha, hb, hqu] at h
                  subst h
                  simp
                  omega
      · rw [qu_cons_ne c rest hc] at h
        by_cases hp : c = '+'
        · rw [if_pos hp] at h
          rcases hqu : queryUnescape rest with _ | r <;> rw [hqu] at h
          · simp at h
          · have hr : r.length ≤ rest.length := ih rest (by simp at hs; omega) r hqu
            simp at h
            subst h
            simp
            omega
        · rw [if_neg hp] at h
          rcases hqu : queryUnescape rest with _ | r <;> rw [hqu] at h
          · simp at h
          · have hr : r.length ≤ rest.length := ih rest (by simp at hs; omega) r hqu
            simp at h
            subst h
            simp
            omega

theorem unescape_len (s t : GoStr) (h : queryUnescape s = some t) : t.length ≤ s.length :=
  unescape_len_aux s.length s le_rfl t h

theorem cutSeg_eq (strict : Bool) (q : GoStr) :
    cutSeg strict q = (match indexAny q (sepsOf strict) with
      | some i => (q.take i, q.drop (i + 1))
      | none => (q, [])) := by
  cases strict
  · rfl
  · unfold cutSeg cutList sepsOf
    rcases hidx : indexAny q ['&'] with _ | i <;> simp [hidx]

theorem splitSegs_no_sep (strict : Bool) :
    ∀ q : GoStr, indexAny q (sepsOf strict) = none → splitSegs strict q = [q] := by
  intro q
  induction q with
  | nil => intro _; rfl
  | cons c t ih =>
    intro h
    unfold indexAny at h
    by_cases hc : (sepsOf strict).contains c
    · rw [if_pos hc] at h
      exact absurd h (by simp)
    · rw [if_neg hc] at h
      have ht : indexAny t (sepsOf strict) = none := by
        rcases hidx : indexAny t (sepsOf strict) with _ | i
        · rfl
        · rw [hidx] at h
          simp at h
      have hc2 : c ∉ sepsOf strict := by simpa using hc
      simp [splitSegs, isSepB, hc, hc2, ih ht]

theorem splitSegs_sep (strict : Bool) :
    ∀ (q : GoStr) (i : Nat), indexAny q (sepsOf strict) = some i →
      splitSegs strict q = q.take i :: splitSegs strict (q.drop (i + 1)) := by
  intro q
  induction q generalizing strict with
  | nil => intro i h; exact absurd h (by simp [indexAny])
  | cons c t ih =>
    intro i h
    unfold indexAny at h
    by_cases hc : (sepsOf strict).contains c
    · rw [if_pos hc] at h
      injection h with h2
      subst h2
      have hc2 : c ∈ sepsOf strict := by simpa using hc
      simp [splitSegs, isSepB, hc, hc2]
    · rw [if_neg hc] at h
      have hc2 : c ∉ sepsOf strict := by simpa using hc
      rcases hidx : indexAny t (sepsOf strict) with _ | j <;> rw [hidx] at h
      · simp at h
      · simp at h
        subst h
        simp [splitSegs, isSepB, hc, hc2, ih strict j hidx, List.take_succ_cons,
          List.drop_succ_cons]

theorem specFindKey_eq (q key : GoStr) (strict : Bool) :
    specFindKey q key strict
      = ((splitSegs strict q).filter (fun s => !s.isEmpty)).findSome? (decodeSeg key) := rfl

theorem segChain_eq (seg key : GoStr) (R : Option GoStr) :
    (if (cutList seg '=').1.length < key.length then R
     else
       match queryUnescape (cutList seg '=').1 with
       | none => R
       | some keyString =>
         if keyString ≠ key then R
         else
           match queryUnescape (cutList seg '=').2.1 with
           | none => R
           | some valueString => some valueString)
      = (match decodeSeg key seg with
         | some dv => some dv
         | none => R) := by
  unfold decodeSeg
  rcases hk : queryUnescape (cutList seg '=').1 with _ | dk
  · rcases hv : queryUnescape (cutList seg '=').2.1 with _ | dv <;>
      by_cases hl : (cutList seg '=').1.length < key.length <;>
        simp [hk, hv, hl]
  · rcases hv : queryUnescape (cutList seg '=').2.1 with _ | dv
    · by_cases hl : (cutList seg '=').1.length < key.length <;>
        by_cases hdk : dk = key <;> simp [hk, hv, hl, hdk]
    · by_cases hl : (cutList seg '=').1.length < key.length
      · have hlen := unescape_len _ _ hk
        have hne : ¬dk = key := by
          intro he
          subst he
          omega
        simp [hk, hv, hl, hne]
      · by_cases hdk : dk = key <;> simp [hk, hv, hl, hdk]

theorem ffqkLoop_spec : ∀ (fuel : Nat) (q key : GoStr) (strict : Bool),
    q.length < fuel → ffqkLoop fuel q key strict = specFindKey q key strict := by
  intro fuel
  induction fuel with
  | zero => intro q key strict h; exact absurd h (Nat.not_lt_zero _)
  | succ fuel ih =>
    intro q key strict hlen
    by_cases hq : q = []
    · subst hq
      rw [ffqkLoop, if_pos rfl]
      simp [specFindKey, splitSegs]
    · have hqpos : 0 < q.length := List.length_pos.mpr hq
      rw [ffqkLoop, if_neg hq]
      rcases hidx : indexAny q (sepsOf strict) with _ | i
      · have hcs : cutSeg strict q = (q, []) := by rw [cutSeg_eq, hidx]
        have hrecnil : ffqkLoop fuel [] key strict = none := by
          rw [ih [] key strict (by simp at hlen ⊢; omega)]
          simp [specFindKey, splitSegs]
        rw [hcs]
        dsimp only
        rw [if_neg hq, segChain_eq q key (ffqkLoop fuel [] key strict), hrecnil]
        rw [specFindKey_eq, splitSegs_no_sep strict q hidx]
        rcases hd : decodeSeg key q with _ | dv <;> simp [hd, hq]
      · have hcs : cutSeg strict q = (q.take i, q.drop (i + 1)) := by rw [cutSeg_eq, hidx]
        have hlen2 : (q.drop (i + 1)).length < fuel := by
          simp only [List.length_drop]
          omega
        have hrec := ih (q.drop (i + 1)) key strict hlen2
        rw [hcs]
        dsimp only
        rw [specFindKey_eq, splitSegs_sep strict q i hidx]
        by_cases hseg : q.take i = []
        · rw [if_pos hseg, hrec]
          simp [specFindKey_eq, hseg]
        · rw [if_neg hseg,
            segChain_eq (q.take i) key (ffqkLoop fuel (q.drop (i + 1)) key strict), hrec]
          rcases hd : decodeSeg key (q.take i) with _ | dv <;>
            simp [hd, hseg, specFindKey_eq]

theorem indexAny_first_sep : ∀ (a : GoStr) (c : Char) (b : GoStr) (chars : List Char),
    indexAny a chars = none → chars.contains c = true →
    indexAny (a ++ c :: b) chars = some a.length := by
  intro a
  induction a with
  | nil =>
    intro c b chars _ hc
    have hmem : c ∈ chars := by simpa using hc
    simp [indexAny, hmem]
  | cons x t ih =>
    intro c b chars h hc
    unfold indexAny at h
    show indexAny (x :: (t ++ c :: b)) chars = _
    rw [indexAny]
    by_cases hx : chars.contains x
    · rw [if_pos hx] at h
      simp at h
    · rw [if_neg hx] at h
      rw [if_neg hx]
      have ht : indexAny t chars = none := by
        rcases hidx : indexAny t chars with _ | i
        · rfl
        · rw [hidx] at h
          simp at h
      rw [ih c b chars ht hc]
      simp

/-! ## Claim C5: query-key lookup -/

/-- C5.  The source query-key scan agrees with the specification wording on
every input: split the raw query on ampersand (strict) or ampersand/semicolon
(non-strict), skip empty segments, cut each segment at the first equals sign,
percent-decode key and value, and return the first decoded value whose decoded
key equals the target; and the three quoted evaluations hold. -/
theorem c5_query_key_lookup :
    (∀ (q key : GoStr) (strict : Bool),
      findFirstQueryKey q key strict = specFindKey q key strict)
    ∧ findFirstQueryKey (gs ("a=1&a=2&a=banana")) (gs ("a")) false = some (gs ("1"))
    ∧ findFirstQueryKey (gs ("a=1;b=2")) (gs ("b")) false = some (gs ("2"))
    ∧ findFirstQueryKey (gs ("a=1;b=2")) (gs ("b")) true = none :=
  ⟨fun q key strict => ffqkLoop_spec (q.length + 1) q key strict (Nat.lt_succ_self _),
    by decide, by decide, by decide⟩

/-! ## Claim C9: undecodable segments are skipped -/

/-- C9.  A segment whose key or value fails percent-decoding is skipped and
scanning continues: prepending such a segment (separator-free and non-empty)
to any query string leaves the lookup result unchanged, so the undecodable
segment is never returned and a later well-formed segment is still found. -/
theorem c9_undecodable_segment_skipped :
    ∀ (seg rest key : GoStr) (strict : Bool),
      seg ≠ [] →
      indexAny seg (sepsOf strict) = none →
      (queryUnescape (cutList seg '=').1 = none
        ∨ queryUnescape (cutList seg '=').2.1 = none) →
      findFirstQueryKey (seg ++ '&' :: rest) key strict
        = findFirstQueryKey rest key strict := by
  intro seg rest key strict hseg hnosep hbad
  have hEq : ∀ q : GoStr, findFirstQueryKey q key strict = specFindKey q key strict :=
    fun q => ffqkLoop_spec (q.length + 1) q key strict (Nat.lt_succ_self _)
  rw [hEq, hEq]
  have hamp : (sepsOf strict).contains '&' = true := by cases strict <;> decide
  have hidx : indexAny (seg ++ '&' :: rest) (sepsOf strict) = some seg.length :=
    indexAny_first_sep seg '&' rest (sepsOf strict) hnosep hamp
  rw [specFindKey_eq, splitSegs_sep strict (seg ++ '&' :: rest) seg.length hidx]
  have htake : (seg ++ '&' :: rest).take seg.length = seg := List.take_left seg ('&' :: rest)
  have hdrop : (seg ++ '&' :: rest).drop (seg.length + 1) = rest := by
    have hsplit : seg ++ '&' :: rest = (seg ++ ['&']) ++ rest := by simp
    have hL : seg.length + 1 = (seg ++ ['&']).length := by simp
    rw [hsplit, hL, List.drop_left]
  rw [htake, hdrop]
  have hd : decodeSeg key seg = none := by
    unfold decodeSeg
    rcases hbad with hk | hv
    · simp [hk]
    · rcases hk2 : queryUnescape (cutList seg '=').1 with _ | dk <;> simp [hk2, hv]
  simp [hseg, hd, specFindKey_eq]

/-- C9 witness: the undecodable segment a=%2 is skipped and the later segment
a=5 is still found. -/
theorem c9_undecodable_segment_skipped_witness :
    (gs ("a=%2") ≠ [] ∧ indexAny (gs ("a=%2")) (sepsOf false) = none
      ∧ queryUnescape (cutList (gs ("a=%2")) '=').2.1 = none)
    ∧ findFirstQueryKey (gs ("a=%2") ++ '&' :: gs ("a=5")) (gs ("a")) false
        = findFirstQueryKey (gs ("a=5")) (gs ("a")) false :=
  ⟨⟨by decide, by decide, by decide⟩,
    c9_undecodable_segment_skipped (gs ("a=%2")) (gs ("a=5")) (gs ("a")) false
      (by decide) (by decide) (Or.inr (by decide))⟩
